import Mathlib

/-!
Verification of the repo-context-service core against its specification.

The Go sources are shallowly embedded: pure helper functions become Lean
functions over `Nat`/`Int`/`String`/`List`; 32-bit machine arithmetic is
modelled as `Nat` with explicit `% 2^32`; fallible operations return
`Except`; external effects (ripgrep execution, Weaviate calls, the LLM
stream) are passed in as explicit oracle parameters, so the control flow
around them is the code's own.
-/

set_option maxRecDepth 100000

namespace RepoContext

/-! ## SHA-256 (Go `crypto/sha256`), over `Nat` bytes and 32-bit words.

`generateChunkID` and `hashContent` in `internal/ingest/chunking.go` take the
first 16 hex characters of a SHA-256 digest; this is the standard FIPS 180-4
SHA-256, modelled here so that chunk identities are computed, not abstracted. -/

def add32 (a b : Nat) : Nat := (a + b) % 4294967296

def rotr (n x : Nat) : Nat := ((x >>> n) ||| (x <<< (32 - n))) % 4294967296

def ch32 (x y z : Nat) : Nat := (x &&& y) ^^^ ((x ^^^ 4294967295) &&& z)

def maj32 (x y z : Nat) : Nat := (x &&& y) ^^^ (x &&& z) ^^^ (y &&& z)

def bsig0 (x : Nat) : Nat := rotr 2 x ^^^ rotr 13 x ^^^ rotr 22 x

def bsig1 (x : Nat) : Nat := rotr 6 x ^^^ rotr 11 x ^^^ rotr 25 x

def ssig0 (x : Nat) : Nat := rotr 7 x ^^^ rotr 18 x ^^^ (x >>> 3)

def ssig1 (x : Nat) : Nat := rotr 17 x ^^^ rotr 19 x ^^^ (x >>> 10)

def sha256K : List Nat :=
  [1116352408, 1899447441, 3049323471, 3921009573, 961987163, 1508970993,
   2453635748, 2870763221, 3624381080, 310598401, 607225278, 1426881987,
   1925078388, 2162078206, 2614888103, 3248222580, 3835390401, 4022224774,
   264347078, 604807628, 770255983, 1249150122, 1555081692, 1996064986,
   2554220882, 2821834349, 2952996808, 3210313671, 3336571891, 3584528711,
   113926993, 338241895, 666307205, 773529912, 1294757372, 1396182291,
   1695183700, 1986661051, 2177026350, 2456956037, 2730485921, 2820302411,
   3259730800, 3345764771, 3516065817, 3600352804, 4094571909, 275423344,
   430227734, 506948616, 659060556, 883997877, 958139571, 1322822218,
   1537002063, 1747873779, 1955562222, 2024104815, 2227730452, 2361852424,
   2428436474, 2756734187, 3204031479, 3329325298]

/-- The eight 32-bit words of the SHA-256 compression state. -/
structure Hash8 where
  a : Nat
  b : Nat
  c : Nat
  d : Nat
  e : Nat
  f : Nat
  g : Nat
  h : Nat
deriving Repr, DecidableEq

def sha256H0 : Hash8 :=
  ⟨1779033703, 3144134277, 1013904242, 2773480762,
   1359893119, 2600822924, 528734635, 1541459225⟩

/-- Big-endian bytes of a 64-bit value. -/
def be64 (n : Nat) : List Nat :=
  [(n >>> 56) % 256, (n >>> 48) % 256, (n >>> 40) % 256, (n >>> 32) % 256,
   (n >>> 24) % 256, (n >>> 16) % 256, (n >>> 8) % 256, n % 256]

/-- Big-endian bytes of a 32-bit word. -/
def be32 (n : Nat) : List Nat :=
  [(n >>> 24) % 256, (n >>> 16) % 256, (n >>> 8) % 256, n % 256]

/-- SHA-256 padding: append 0x80, zero bytes to 56 mod 64, then the bit length. -/
def sha256Pad (msg : List Nat) : List Nat :=
  msg ++ 0x80 :: List.replicate ((119 - msg.length % 64) % 64) 0 ++ be64 (8 * msg.length)

/-- Split a byte list into 64-byte blocks (fuel-structured so the kernel can
evaluate it; the fuel `n` bounds the number of blocks). -/
def toBlocksF : Nat → List Nat → List (List Nat)
  | 0, _ => []
  | _, [] => []
  | n + 1, l => l.take 64 :: toBlocksF n (l.drop 64)

def toBlocks (l : List Nat) : List (List Nat) := toBlocksF l.length l

/-- Pack bytes into big-endian 32-bit words. -/
def toWords : List Nat → List Nat
  | b0 :: b1 :: b2 :: b3 :: rest => (((b0 * 256 + b1) * 256 + b2) * 256 + b3) :: toWords rest
  | _ => []

/-- Extend the 16 block words to the 64-entry message schedule; `n` counts the
remaining entries to produce (48 for a full schedule). -/
def extendW : Nat → Array Nat → Array Nat
  | 0, w => w
  | n + 1, w =>
    let i := w.size
    extendW n (w.push (add32 (add32 (ssig1 (w.getD (i - 2) 0)) (w.getD (i - 7) 0))
                             (add32 (ssig0 (w.getD (i - 15) 0)) (w.getD (i - 16) 0))))

def sha256Round (w k : Nat) (s : Hash8) : Hash8 :=
  let t1 := add32 (add32 (add32 s.h (bsig1 s.e)) (add32 (ch32 s.e s.f s.g) k)) w
  let t2 := add32 (bsig0 s.a) (maj32 s.a s.b s.c)
  ⟨add32 t1 t2, s.a, s.b, s.c, add32 s.d t1, s.e, s.f, s.g⟩

def sha256Block (s : Hash8) (block : List Nat) : Hash8 :=
  let w := extendW 48 (toWords block).toArray
  let t := (List.range 64).foldl (fun st i => sha256Round (w.getD i 0) (sha256K.getD i 0) st) s
  ⟨add32 s.a t.a, add32 s.b t.b, add32 s.c t.c, add32 s.d t.d,
   add32 s.e t.e, add32 s.f t.f, add32 s.g t.g, add32 s.h t.h⟩

/-- SHA-256 digest (32 bytes) of a byte message. -/
def sha256 (msg : List Nat) : List Nat :=
  let s := (toBlocks (sha256Pad msg)).foldl sha256Block sha256H0
  be32 s.a ++ be32 s.b ++ be32 s.c ++ be32 s.d ++ be32 s.e ++ be32 s.f ++ be32 s.g ++ be32 s.h

/-- UTF-8 bytes of a unicode code point, as Go's `[]byte(string)` produces. -/
def utf8Bytes (c : Nat) : List Nat :=
  if c < 0x80 then [c]
  else if c < 0x800 then [0xC0 + c / 0x40, 0x80 + c % 0x40]
  else if c < 0x10000 then [0xE0 + c / 0x1000, 0x80 + (c / 0x40) % 0x40, 0x80 + c % 0x40]
  else [0xF0 + c / 0x40000, 0x80 + (c / 0x1000) % 0x40, 0x80 + (c / 0x40) % 0x40, 0x80 + c % 0x40]

/-- The bytes of a string, as Go's `[]byte(s)`. -/
def strBytes (s : String) : List Nat := s.data.flatMap (fun c => utf8Bytes c.toNat)

def hexChar (n : Nat) : Char := if n < 10 then Char.ofNat (48 + n) else Char.ofNat (87 + n)

/-- Lowercase hex of a byte list, as Go's `fmt.Sprintf("%x", hash)`. -/
def hexOfBytes (bs : List Nat) : String :=
  String.mk (bs.flatMap (fun b => [hexChar (b / 16), hexChar (b % 16)]))

/-! ## Chunker (`internal/ingest/chunking.go`) -/

/-- Go's `unicode.IsSpace`: the White_Space code points. -/
def goIsSpace (c : Char) : Bool :=
  let n := c.toNat
  n == 9 || n == 10 || n == 11 || n == 12 || n == 13 || n == 32 || n == 0x85 || n == 0xA0 ||
  n == 0x1680 || (0x2000 ≤ n && n ≤ 0x200A) || n == 0x2028 || n == 0x2029 || n == 0x202F ||
  n == 0x205F || n == 0x3000

/-- `FileChunk` from `internal/ingest/types`. Line numbers are 1-based. -/
structure FileChunk where
  id : String
  repositoryId : String
  filePath : String
  startLine : Nat
  endLine : Nat
  content : String
  language : String
  size : Nat
  hash : String
deriving Repr, DecidableEq

/-- `generateChunkID`: first 16 hex chars of
`sha256(filePath + ":" + startLine + "-" + endLine)`. -/
def generateChunkID (filePath : String) (startLine endLine : Nat) : String :=
  (hexOfBytes (sha256 (strBytes
    (filePath ++ ":" ++ toString startLine ++ "-" ++ toString endLine)))).take 16

/-- `hashContent`: first 16 hex chars of `sha256(content)`. -/
def hashContent (content : String) : String :=
  (hexOfBytes (sha256 (strBytes content))).take 16

/-- The text of the window `[i, e)` of a file's lines, as the Go code's
`strings.Join(lines[i:e], "\n")`. -/
def windowContent (lines : List String) (i e : Nat) : String :=
  String.intercalate "\n" ((lines.drop i).take (e - i))

/-- The loop body of `chunkFile`. `i` is the 0-based window start; the fuel
argument only bounds the iteration count (each Go iteration advances `i` by
`chunkSize - overlap`, so `lines.length + 1` fuel is always enough when
`overlap < chunkSize`; for `overlap ≥ chunkSize` the Go loop does not
terminate, which the model cuts off by exhausting fuel).
The Go test `strings.TrimSpace(content) == ""` holds exactly when every
character of `content` is white space, which is how it is written here. -/
def chunkLoop (fp lang : String) (lines : List String) (cs ov : Nat) :
    Nat → Nat → List FileChunk
  | 0, _ => []
  | fuel + 1, i =>
    if i < lines.length then
      let endIdx := min (i + cs) lines.length
      if endIdx - i < cs / 10 ∧ 0 < i then []
      else
        let content := windowContent lines i endIdx
        if content.data.all goIsSpace then
          chunkLoop fp lang lines cs ov fuel (i + (cs - ov))
        else
          { id := generateChunkID fp (i + 1) endIdx, repositoryId := "", filePath := fp,
            startLine := i + 1, endLine := endIdx, content := content, language := lang,
            size := content.utf8ByteSize, hash := hashContent content } ::
          (if lines.length ≤ endIdx then []
           else chunkLoop fp lang lines cs ov fuel (i + (cs - ov)))
    else []

/-- `chunkFile` (reading the file's lines is passed in as `lines`). -/
def chunkFile (fp lang : String) (lines : List String) (cs ov : Nat) : List FileChunk :=
  chunkLoop fp lang lines cs ov (lines.length + 1) 0

/-- Index (in window counts) of the first window that reaches the end of the
file. -/
def finalQ (len cs step : Nat) : Nat :=
  if len ≤ cs then 0 else (len - cs + step - 1) / step

/-- 0-based start index of the first window that reaches the end of the file
(the claim's "final partial window"): the least multiple of `step` from which
`chunkSize` more lines cover the file. -/
def finalStart (len cs step : Nat) : Nat := step * finalQ len cs step

/-- Lines used in the C6 counterexample: 16 non-blank lines. -/
def ce6lines : List String := List.replicate 15 "a" ++ ["b"]

/-! ## Result merger (`internal/query/lexical_rg.go`, `ResultMerger`) -/

/-- proto `SearchSource`. -/
inductive SearchSource where
  | unspecified
  | lexical
  | semantic
  | merged
deriving Repr, DecidableEq

/-- proto `CodeChunk`, polymorphic in the score type: the merge logic only
compares scores (`float32` in Go), so it is stated over any linear order and
instantiated with `ℚ` for executable witnesses and with `ℝ` for the score
normalization claim. -/
structure CodeChunk (α : Type) where
  repositoryId : String
  filePath : String
  startLine : Int
  endLine : Int
  content : String
  language : String
  symbol : String
  score : α
  source : SearchSource
deriving Repr, DecidableEq

/-- `leadsWith t s`: `t` is an initial segment of `s`. -/
def leadsWith : List Char → List Char → Bool
  | [], _ => true
  | _ :: _, [] => false
  | a :: as, b :: bs => a == b && leadsWith as bs

/-- `occursIn t s`: `t` occurs contiguously somewhere in `s`. -/
def occursIn (t : List Char) : List Char → Bool
  | [] => leadsWith t []
  | c :: rest => leadsWith t (c :: rest) || occursIn t rest

/-- Go `strings.Contains(s, sub)`: for valid UTF-8, byte-level containment is
character-level containment. -/
def goContains (s sub : String) : Bool := occursIn sub.data s.data

/-- Go `strings.Split(s, "\n")` at the character-list level (the merger only
uses the length of the split). -/
def splitNl : List Char → List (List Char)
  | [] => [[]]
  | c :: rest =>
    if c = '\n' then [] :: splitNl rest
    else
      match splitNl rest with
      | h :: t => (c :: h) :: t
      | [] => [[c]]

/-- `ResultMerger.hasOverlap`: same file, and the two line ranges within a
5-line proximity window. -/
def hasOverlap {α : Type} (c1 c2 : CodeChunk α) : Bool :=
  if c1.filePath ≠ c2.filePath then false
  else decide (c2.startLine - 5 ≤ c1.endLine) && decide (c1.startLine ≤ c2.endLine + 5)

/-- `ResultMerger.combineContent`: keep whichever content has more
`"\n"`-split lines (ties keep the first). -/
def combineContent (content1 content2 : String) : String :=
  if (splitNl content2.data).length > (splitNl content1.data).length then content2 else content1

/-- `ResultMerger.copyChunk`: a field-by-field copy. -/
def copyChunk {α : Type} (c : CodeChunk α) : CodeChunk α :=
  { repositoryId := c.repositoryId, filePath := c.filePath, startLine := c.startLine,
    endLine := c.endLine, content := c.content, language := c.language, symbol := c.symbol,
    score := c.score, source := c.source }

/-- `ResultMerger.mergeOverlappingChunks`: union the line range, keep the
content with more lines unless chunk1's content already contains chunk2's,
take the higher score, and mark the result MERGED. The Go code conditionally
overwrites fields of a copy of `chunk1` in sequence; each condition reads only
fields not yet overwritten, so the per-field conditional expressions below are
the same function. -/
def mergeOverlappingChunks {α : Type} [LinearOrder α] (c1 c2 : CodeChunk α) : CodeChunk α :=
  { copyChunk c1 with
    startLine := if c2.startLine < c1.startLine then c2.startLine else c1.startLine,
    endLine := if c2.endLine > c1.endLine then c2.endLine else c1.endLine,
    content := if ¬ goContains c1.content c2.content
               then combineContent c1.content c2.content else c1.content,
    score := if c2.score > c1.score then c2.score else c1.score,
    source := .merged }

/-- One step of `deduplicateFileChunks`'s outer loop: scan the accumulated
list from its last element backwards for the first chunk overlapping `c`;
merge into it in place, or append a copy of `c` if none overlaps. The scan is
written on the reversed accumulator. -/
def mergeScanRev {α : Type} [LinearOrder α] :
    List (CodeChunk α) → CodeChunk α → Option (List (CodeChunk α))
  | [], _ => none
  | d :: rest, c =>
    if hasOverlap d c then some (mergeOverlappingChunks d c :: rest)
    else (mergeScanRev rest c).map (d :: ·)

def dedupStep {α : Type} [LinearOrder α] (acc : List (CodeChunk α)) (c : CodeChunk α) :
    List (CodeChunk α) :=
  match mergeScanRev acc.reverse c with
  | some r => r.reverse
  | none => acc ++ [copyChunk c]

/-- `ResultMerger.deduplicateFileChunks`. Go sorts with `sort.Slice` (an
unstable sort) by ascending `StartLine`; insertion sort agrees with it on the
two-element lists the dedup claim is about. -/
def deduplicateFileChunks {α : Type} [LinearOrder α] (chunks : List (CodeChunk α)) :
    List (CodeChunk α) :=
  if chunks.length ≤ 1 then chunks
  else ((chunks.insertionSort (fun a b => a.startLine ≤ b.startLine)).foldl dedupStep [])

/-- Concrete chunks for the C7 content counterexample. -/
def ceA : CodeChunk ℚ :=
  { repositoryId := "r", filePath := "a.go", startLine := 1, endLine := 1,
    content := "aaaaaaaaaaaaaaaaaaaa", language := "go", symbol := "", score := 1,
    source := .lexical }

def ceB : CodeChunk ℚ :=
  { repositoryId := "r", filePath := "a.go", startLine := 2, endLine := 3,
    content := "x\ny", language := "go", symbol := "", score := 0,
    source := .semantic }

/-! ### Score normalization (`ResultMerger.normalizeScores`), over `ℝ` -/

/-- Mean of the raw scores (`sum / count` in the source). -/
noncomputable def scoreMean (chunks : List (CodeChunk ℝ)) : ℝ :=
  (chunks.map (·.score)).sum / chunks.length

/-- Population variance as computed in the source:
`sumSquares/count - mean*mean`. -/
noncomputable def scoreVariance (chunks : List (CodeChunk ℝ)) : ℝ :=
  (chunks.map (fun c => c.score * c.score)).sum / chunks.length -
    scoreMean chunks * scoreMean chunks

/-- `stdDev := sqrt variance`, replaced by 1 when zero ("avoid division by
zero" in the source). -/
noncomputable def scoreStdDevAdj (chunks : List (CodeChunk ℝ)) : ℝ :=
  if Real.sqrt (scoreVariance chunks) = 0 then 1 else Real.sqrt (scoreVariance chunks)

/-- `ResultMerger.normalizeScores`: z-score each raw score against the list's
mean and (adjusted) standard deviation and map through the logistic sigmoid;
all other fields are copied. Go's `float64` arithmetic is modelled over `ℝ`. -/
noncomputable def normalizeScores (chunks : List (CodeChunk ℝ)) : List (CodeChunk ℝ) :=
  if chunks.isEmpty then chunks
  else chunks.map (fun c =>
    { repositoryId := c.repositoryId, filePath := c.filePath, startLine := c.startLine,
      endLine := c.endLine, content := c.content, language := c.language, symbol := c.symbol,
      source := c.source,
      score := 1 / (1 + Real.exp (-((c.score - scoreMean chunks) / scoreStdDevAdj chunks))) })

/-- A single chunk with score 5, for the C8 witness. -/
noncomputable def cw8 : CodeChunk ℝ :=
  { repositoryId := "r", filePath := "f", startLine := 1, endLine := 1, content := "",
    language := "", symbol := "", score := 5, source := .lexical }

/-- A chunk with the given real score, for the C8 counterexample. -/
noncomputable def c8chunk (q : ℝ) : CodeChunk ℝ :=
  { repositoryId := "r", filePath := "f", startLine := 1, endLine := 1, content := "",
    language := "", symbol := "", score := q, source := .lexical }

/-- Five chunks with raw scores `[0,0,0,0,1]`: their σ is 2/5 > 0. -/
noncomputable def c8list : List (CodeChunk ℝ) :=
  [c8chunk 0, c8chunk 0, c8chunk 0, c8chunk 0, c8chunk 1]

/-! ## Indexer (`IndexEmbeddings` in `internal/ingest/chunking.go`,
`UpsertVectors` in `internal/query/semantic_weaviate.go`) -/

/-- A value of the `map[string]interface{}` metadata built by
`IndexEmbeddings`: the seven keys hold strings and integers only. -/
inductive MetaValue where
  | s (v : String)
  | i (v : Int)
deriving Repr, DecidableEq

/-- Fields of `ingest.EmbeddedChunk` that `IndexEmbeddings` reads. Embedding
components are exact rationals standing for the float32 values;
`createdAtUnix` is `CreatedAt.Unix()`. -/
structure EmbeddedChunk where
  id : String
  repositoryId : String
  filePath : String
  startLine : Int
  endLine : Int
  content : String
  language : String
  size : Int
  createdAtUnix : Int
  embedding : List ℚ
deriving Repr, DecidableEq

/-- `ingest.Vector`. -/
structure IngestVector where
  id : String
  vector : List ℚ
  metadata : List (String × MetaValue)
deriving Repr, DecidableEq

/-- `weaviate models.Object` as constructed by `UpsertVectors`: class name,
properties, and the object's vector field — `none` models the Go zero value
`nil` of a field that is never assigned. -/
structure WeaviateObject where
  className : String
  properties : List (String × MetaValue)
  vector : Option (List ℚ)
deriving Repr, DecidableEq

/-- Go `toWeaviateClassName`: `"Repo" + strings.ReplaceAll(strings.TrimPrefix
(repoID, "repo-"), "-", "")`; replacing every `"-"` by the empty string is
removing every dash. -/
def toWeaviateClassName (repoID : String) : String :=
  let trimmed := if leadsWith "repo-".data repoID.data
                 then String.mk (repoID.data.drop 5) else repoID
  "Repo" ++ String.mk (trimmed.data.filter (fun c => c ≠ '-'))

/-- The `ingest.Vector` record `IndexEmbeddings` builds for one chunk: the
seven metadata keys in source order, plus id and embedding. -/
def chunkToVector (chunk : EmbeddedChunk) : IngestVector :=
  { id := chunk.id, vector := chunk.embedding,
    metadata := [("repository_id", .s chunk.repositoryId),
                 ("file_path", .s chunk.filePath),
                 ("start_line", .i chunk.startLine),
                 ("end_line", .i chunk.endLine),
                 ("language", .s chunk.language),
                 ("size", .i chunk.size),
                 ("created_at", .i chunk.createdAtUnix)] }

/-- Slices of up to `n` elements, in order (fuel-structured like
`toBlocksF`). -/
def chunksOfF {α : Type} (n : Nat) : Nat → List α → List (List α)
  | 0, _ => []
  | _, [] => []
  | fuel + 1, l => l.take n :: chunksOfF n fuel (l.drop n)

def chunksOf {α : Type} (n : Nat) (l : List α) : List (List α) := chunksOfF n l.length l

/-- Body of `UpsertVectors`: the objects handed to the Weaviate batcher. The
local `strVector` is computed from `vector.Vector` but never stored into the
object — `models.Object{Class: ..., Properties: ...}` leaves the `Vector`
field at its zero value — so every stored object carries `vector := none`. -/
def upsertVectorsObjects (collectionName : String) (vectors : List IngestVector) :
    List WeaviateObject :=
  vectors.map (fun v =>
    let properties := v.metadata
    let _strVector := v.vector
    { className := collectionName, properties := properties, vector := none })

/-- `IndexEmbeddings`: convert chunks to vectors, batch them by 100, upsert
each batch; this is the list of objects sent across all batches, in order. -/
def indexEmbeddingsSentObjects (repoID : String) (chunks : List EmbeddedChunk) :
    List WeaviateObject :=
  ((chunksOf 100 (chunks.map chunkToVector)).map
    (upsertVectorsObjects (toWeaviateClassName repoID))).flatten

/-- Concrete embedded chunk for the C1 failing input. -/
def c1chunk : EmbeddedChunk :=
  { id := "abc", repositoryId := "repo-1", filePath := "main.go", startLine := 1,
    endLine := 10, content := "package main", language := "go", size := 12,
    createdAtUnix := 1700000000, embedding := [1, 2, 3] }

/-! ## Dual search (`performDualSearch` in the chat server file) -/

/-- `performDualSearch`, with the external calls as parameters: the lexical
search outcome, the query-embedding outcome, the semantic search as a function
of the embedding, and `MergeAndRank` as the merge function. The control flow —
returning an error as soon as any of the three steps fails — is the code's
own. -/
def performDualSearch (mergeAndRank : List (CodeChunk ℚ) → List (CodeChunk ℚ) → List (CodeChunk ℚ))
    (lexical : Except String (List (CodeChunk ℚ)))
    (queryEmbedding : Except String (List ℚ))
    (semantic : List ℚ → Except String (List (CodeChunk ℚ)))
    (limit : Nat) : Except String (List (CodeChunk ℚ)) :=
  match lexical with
  | .error e => .error ("lexical search failed: " ++ e)
  | .ok lexicalResults =>
    match queryEmbedding with
    | .error e => .error ("failed to generate query embedding: " ++ e)
    | .ok emb =>
      match semantic emb with
      | .error e => .error ("semantic search failed: " ++ e)
      | .ok semanticResults =>
        let merged := mergeAndRank lexicalResults semanticResults
        .ok (merged.take (min limit merged.length))

/-- A semantic result chunk for the C2 counterexample. -/
def c2chunk : CodeChunk ℚ :=
  { repositoryId := "r", filePath := "a.go", startLine := 1, endLine := 2,
    content := "func A()", language := "go", symbol := "", score := 1,
    source := .semantic }

/-! ## Upload idempotency (`UploadGitRepository` in
`internal/api/upload.go`, `CreateRepositoryIndex` in
`internal/ingest/inline.go`) -/

/-- gRPC status codes used by the handlers. -/
inductive GrpcCode where
  | ok
  | invalidArgument
  | notFound
  | failedPrecondition
  | internal
deriving Repr, DecidableEq

/-- proto `IngestionStatus.State`. -/
inductive IngestState where
  | unspecified
  | pending
  | extracting
  | chunking
  | embedding
  | indexing
  | ready
  | failed
deriving Repr, DecidableEq

/-- `cache.CachedUploadStatus` (the fields the idempotency path uses);
creation time is modelled abstractly as 0. -/
structure CachedUploadStatus where
  uploadID : String
  repositoryID : String
  state : IngestState
  createdAt : Int
deriving Repr, DecidableEq

/-- System state threaded through the upload path: the `upload_status` cache
keyed by `(tenant, upload_id)`, the background ingestion pipelines launched so
far (as `(repository_id, idempotency_key)` pairs, in launch order), and the
repository-metadata keys written. -/
structure SysState where
  uploadStatuses : List ((String × String) × CachedUploadStatus)
  startedPipelines : List (String × String)
  repoMeta : List (String × String)
deriving Repr, DecidableEq

/-- `cache.GetUploadStatus`: first matching `(tenant, upload_id)` entry. -/
def getUploadStatus (cache : List ((String × String) × CachedUploadStatus))
    (tenant uploadID : String) : Option CachedUploadStatus :=
  (cache.find? (fun kv => kv.1.1 == tenant && kv.1.2 == uploadID)).map (·.2)

/-- `CreateIndexResponse` (inline.go). -/
structure CreateIndexResponse where
  repositoryID : String
  indexID : String
  state : IngestState
deriving Repr, DecidableEq

/-- `InlineProcessor.CreateRepositoryIndex`: the idempotency check is present
in the source only as a commented-out block ("TEMPORARILY DISABLED"), so the
model goes straight to creating the job, caching the PENDING status, and
launching the background pipeline. -/
def createRepositoryIndex (tenant repoID key : String) (st : SysState) :
    CreateIndexResponse × SysState :=
  let cached : CachedUploadStatus :=
    { uploadID := key, repositoryID := repoID, state := .pending, createdAt := 0 }
  ({ repositoryID := repoID, indexID := repoID, state := .pending },
   { st with uploadStatuses := ((tenant, key), cached) :: st.uploadStatuses,
             startedPipelines := st.startedPipelines ++ [(repoID, key)] })

/-- `UploadRepositoryResponse` (the fields the handler fills). -/
structure UploadResponse where
  uploadID : String
  repositoryID : String
  state : IngestState
deriving Repr, DecidableEq

/-- `UploadServer.UploadGitRepository`. `freshRepoID`/`freshUploadID` stand for
the time-based `generateRepositoryID`/`generateUploadID`; the idempotency
check is present in the source only as a commented-out block ("TEMPORARILY
DISABLED"), so a repeated key is not looked up. -/
def uploadGitRepository (defaultTenant freshRepoID freshUploadID : String)
    (tenant key url : String) (st : SysState) :
    Except GrpcCode (UploadResponse × SysState) :=
  let tenantID := if tenant = "" then defaultTenant else tenant
  let repoID := freshRepoID
  let uploadID := if key = "" then freshUploadID else key
  if url = "" then .error .invalidArgument
  else
    let (resp, st1) := createRepositoryIndex tenantID repoID uploadID st
    .ok ({ uploadID := uploadID, repositoryID := repoID, state := resp.state },
         { st1 with repoMeta := (tenantID, repoID) :: st1.repoMeta })

def c3st0 : SysState := { uploadStatuses := [], startedPipelines := [], repoMeta := [] }

/-- State after the first submission with idempotency key "k1". -/
def c3stAfterFirst : SysState :=
  match uploadGitRepository "local" "repo-1" "up-1" "t" "k1" "https://h/x.git" c3st0 with
  | .ok (_, st) => st
  | .error _ => c3st0

/-! ## Chat orchestrator (`ChatWithRepository`, `handleChatStart`,
`handleChatMessage` in the chat server file) -/

/-- proto `HitPhase`. -/
inductive HitPhase where
  | early
  | final
deriving Repr, DecidableEq

/-- The outbound `ChatResponse` messages, with the fields the handler fills
(the placeholder timings/stats of `Complete` are omitted). -/
inductive ChatEvent where
  | searchStarted (sessionId queryId : String)
  | searchHit (sessionId queryId : String) (phase : HitPhase) (rank : Int)
      (chunk : CodeChunk ℚ)
  | compositionStarted (sessionId queryId : String) (contextChunks : Int)
  | compositionToken (sessionId queryId text : String)
  | compositionComplete (sessionId queryId fullResponse : String) (citations : List String)
  | complete (sessionId queryId : String)
deriving Repr, DecidableEq

/-- `composer.ComposeResult` (fields the handler reads). -/
structure ComposeResult where
  fullResponse : String
  citations : List String
deriving Repr, DecidableEq

/-- Outcome of `ComposeAnswerStream`: the tokens delivered to the callback
before it returned, then the final result or error. -/
structure StreamComposeOutcome where
  tokens : List String
  result : Except String ComposeResult
deriving Repr

/-- proto `ChatOptions`. -/
structure ChatOptions where
  maxResults : Int
  streamTokens : Bool
  model : String
deriving Repr, DecidableEq

/-- `api.ChatSession` (fields the message path reads). -/
structure ChatSession where
  id : String
  repositoryId : String
  tenantId : String
  options : Option ChatOptions
deriving Repr, DecidableEq

/-- The Go condition `session.Options != nil && session.Options.StreamTokens`. -/
def isStreamingOpts : Option ChatOptions → Bool
  | some o => o.streamTokens
  | none => false

/-- `handleChatMessage`, with the retriever and composer outcomes as
parameters; `stream.Send` is modelled as always succeeding (transport failures
are outside the event-order claim), so the function returns the events sent,
in order, plus the gRPC error it returns to the stream loop, if any. -/
def handleChatMessage (session : ChatSession) (queryId : String)
    (search : Except String (List (CodeChunk ℚ)))
    (composeStream : StreamComposeOutcome)
    (compose : Except String ComposeResult) :
    List ChatEvent × Option GrpcCode :=
  let ev0 := [ChatEvent.searchStarted session.id queryId]
  match search with
  | .error _ => (ev0, some .internal)
  | .ok results =>
    -- The Go code sends the first 3 hits as EARLY when there are at least 3
    -- (ranks i+1 for i = 0,1,2), then the rest as FINAL from startIdx = 3
    -- with ranks i+1 for global index i; with fewer than 3 results it sends
    -- everything as FINAL from startIdx = 0. The two send loops are written
    -- here as the one conditional list they produce.
    let hits :=
      if 3 ≤ results.length then
        (results.take 3).enum.map
          (fun p => ChatEvent.searchHit session.id queryId .early ((p.1 : Int) + 1) p.2) ++
        (results.drop 3).enum.map
          (fun p => ChatEvent.searchHit session.id queryId .final
            (((3 + p.1 : Nat) : Int) + 1) p.2)
      else
        results.enum.map
          (fun p => ChatEvent.searchHit session.id queryId .final ((p.1 : Int) + 1) p.2)
    let ev1 := ev0 ++ hits ++
      [ChatEvent.compositionStarted session.id queryId results.length]
    match isStreamingOpts session.options with
    | true =>
      let toks := composeStream.tokens.map (ChatEvent.compositionToken session.id queryId)
      match composeStream.result with
      | .error _ => (ev1 ++ toks, some .internal)
      | .ok r =>
        (ev1 ++ toks ++
          [ChatEvent.compositionComplete session.id queryId r.fullResponse r.citations,
           ChatEvent.complete session.id queryId], none)
    | false =>
      match compose with
      | .error _ => (ev1, some .internal)
      | .ok r =>
        (ev1 ++
          [ChatEvent.compositionComplete session.id queryId r.fullResponse r.citations,
           ChatEvent.complete session.id queryId], none)

/-- The claim's description of the SearchHit block of one query cycle: with at
least 3 results the first 3 as EARLY with ranks 1..3 in rank order followed by
the remainder as FINAL with ranks ascending from 4; with fewer than 3 results
all hits FINAL with ranks ascending from 1. -/
def claimCycleHits (sid qid : String) (results : List (CodeChunk ℚ)) : List ChatEvent :=
  if 3 ≤ results.length then
    (results.take 3).enum.map
      (fun p => ChatEvent.searchHit sid qid .early ((p.1 : Int) + 1) p.2) ++
    (results.drop 3).enum.map
      (fun p => ChatEvent.searchHit sid qid .final ((p.1 : Int) + 4) p.2)
  else
    results.enum.map (fun p => ChatEvent.searchHit sid qid .final ((p.1 : Int) + 1) p.2)

/-- proto `ChatRequest`'s sum type; `unknown` is the `default` arm of the Go
type switch. -/
inductive ChatReq where
  | start (repositoryId tenantId : String) (options : Option ChatOptions)
  | chatMessage (query sessionId : String)
  | cancel (sessionId : String)
  | unknown
deriving Repr, DecidableEq

/-- Repository metadata (the field `handleChatStart` checks). -/
structure RepoMeta where
  repositoryId : String
  state : IngestState
deriving Repr, DecidableEq

/-- The chat server's collaborators, as oracles: the metadata cache lookup,
the per-query retrieval and composer outcomes, and the time-based id
generators (indexed by a call counter). -/
structure ChatEnv where
  defaultTenant : String
  getRepoMeta : String → String → Except String (Option RepoMeta)
  search : String → Except String (List (CodeChunk ℚ))
  composeStream : String → StreamComposeOutcome
  compose : String → Except String ComposeResult
  freshSessionId : Nat → String
  freshQueryId : Nat → String

/-- How `ChatWithRepository` ends: with a gRPC status error, normally (the
Cancel arm returns nil), or because the inbound stream was exhausted (the
`Recv` error return). Each carries the events sent before ending. -/
inductive StreamOutcome where
  | grpcError (code : GrpcCode) (events : List ChatEvent)
  | closed (events : List ChatEvent)
  | recvExhausted (events : List ChatEvent)
deriving Repr, DecidableEq

/-- `handleChatStart`: default the tenant, look the repository up, require it
to exist and be READY, then create the session. -/
def handleChatStart (env : ChatEnv) (n : Nat) (repoId tenant : String)
    (options : Option ChatOptions) : Except GrpcCode ChatSession :=
  let tenantID := if tenant = "" then env.defaultTenant else tenant
  match env.getRepoMeta tenantID repoId with
  | .error _ => .error .internal
  | .ok none => .error .notFound
  | .ok (some repo) =>
    if repo.state ≠ .ready then .error .failedPrecondition
    else .ok { id := env.freshSessionId n, repositoryId := repoId, tenantId := tenantID,
               options := options }

/-- The `ChatWithRepository` receive loop: dispatch each inbound message with
the current session (`none` before any successful Start). -/
def chatLoop (env : ChatEnv) :
    List ChatReq → Option ChatSession → Nat → List ChatEvent → StreamOutcome
  | [], _, _, evs => .recvExhausted evs
  | req :: rest, session, n, evs =>
    match req with
    | .start repoId tenant options =>
      match handleChatStart env n repoId tenant options with
      | .error code => .grpcError code evs
      | .ok s => chatLoop env rest (some s) (n + 1) evs
    | .chatMessage q _ =>
      match session with
      | none => .grpcError .failedPrecondition evs
      | some s =>
        match handleChatMessage s (env.freshQueryId n) (env.search q)
            (env.composeStream q) (env.compose q) with
        | (newEvs, some code) => .grpcError code (evs ++ newEvs)
        | (newEvs, none) => chatLoop env rest (some s) (n + 1) (evs ++ newEvs)
    | .cancel _ => .closed evs
    | .unknown => .grpcError .invalidArgument evs

def chatWithRepository (env : ChatEnv) (msgs : List ChatReq) : StreamOutcome :=
  chatLoop env msgs none 0 []

/-- Concrete environment for the C5 counterexample: a READY repository and
trivial search/composer oracles. -/
def c5env : ChatEnv :=
  { defaultTenant := "local",
    getRepoMeta := fun _ _ => .ok (some { repositoryId := "r", state := .ready }),
    search := fun _ => .ok [],
    composeStream := fun _ => { tokens := [], result := .ok { fullResponse := "", citations := [] } },
    compose := fun _ => .ok { fullResponse := "", citations := [] },
    freshSessionId := fun n => "session-" ++ toString n,
    freshQueryId := fun n => "query-" ++ toString n }

/-! ## Lexical search argument building (`SearchLexical`, `buildRipgrepArgs`,
`queryToRegex`, `generateFuzzyPatterns` in `internal/query/lexical_rg.go`) -/

/-- Go `strings.Fields`: maximal runs of non-space characters. `acc` holds the
current word's characters in reverse. -/
def fieldsAux : List Char → List Char → List String
  | [], acc => if acc = [] then [] else [String.mk acc.reverse]
  | c :: rest, acc =>
    if goIsSpace c then
      if acc = [] then fieldsAux rest []
      else String.mk acc.reverse :: fieldsAux rest []
    else fieldsAux rest (c :: acc)

def goFields (s : String) : List String := fieldsAux s.data []

/-- ASCII case mapping; Go's `strings.ToLower`/`strings.Title` lower and
upper full Unicode, modelled here for ASCII letters (the queries the claims
quantify over; the C10 claim depends only on whether the term list is
empty). -/
def asciiLower (c : Char) : Char :=
  if 'A' ≤ c ∧ c ≤ 'Z' then Char.ofNat (c.toNat + 32) else c

def asciiUpper (c : Char) : Char :=
  if 'a' ≤ c ∧ c ≤ 'z' then Char.ofNat (c.toNat - 32) else c

def goToLower (s : String) : String := String.mk (s.data.map asciiLower)

/-- Go `strings.Title` on a single whitespace-free term: uppercase the first
letter. -/
def goTitle (s : String) : String :=
  match s.data with
  | [] => ""
  | c :: rest => String.mk (asciiUpper c :: rest)

/-- The characters Go `regexp.QuoteMeta` escapes (123 and 125 are the curly
braces). -/
def isRegexSpecial (c : Char) : Bool :=
  c == '\\' || c == '.' || c == '+' || c == '*' || c == '?' || c == '(' || c == ')' ||
  c == '|' || c == '[' || c == ']' || c.toNat == 123 || c.toNat == 125 || c == '^' || c == '$'

def quoteMeta (s : String) : String :=
  String.mk (s.data.flatMap (fun c => if isRegexSpecial c then ['\\', c] else [c]))

/-- The `fuzzyMap` table of `generateFuzzyPatterns`, in source order. Go map
iteration order is unspecified; only lookups and membership matter to the
claims. -/
def fuzzyMap : List (String × List String) :=
  [("auth", ["authentication", "authorization", "authorize", "authenticated", "authenticator"]),
   ("authentication", ["auth", "authenticator", "authenticate"]),
   ("authorization", ["auth", "authorize", "authz"]),
   ("config", ["configuration", "configure", "conf"]),
   ("configuration", ["config", "conf"]),
   ("db", ["database", "data_base"]),
   ("database", ["db", "data_base"]),
   ("api", ["endpoint", "service", "rest", "graphql"]),
   ("endpoint", ["api", "route", "handler"]),
   ("handler", ["handle", "controller", "processor"]),
   ("service", ["svc", "server", "api"]),
   ("server", ["srv", "service", "daemon"]),
   ("client", ["cli", "consumer"]),
   ("response", ["resp", "result", "reply"]),
   ("request", ["req", "query", "input"]),
   ("error", ["err", "exception", "failure"]),
   ("function", ["func", "method", "procedure"]),
   ("method", ["func", "function"]),
   ("variable", ["var", "field", "property"]),
   ("parameter", ["param", "arg", "argument"]),
   ("middleware", ["middleware", "interceptor", "filter"]),
   ("route", ["router", "routing", "path"]),
   ("controller", ["ctrl", "handler", "processor"]),
   ("model", ["schema", "entity", "data"]),
   ("view", ["template", "render", "display"]),
   ("user", ["users", "account", "profile"]),
   ("password", ["pwd", "pass", "secret"]),
   ("token", ["jwt", "bearer", "session"]),
   ("session", ["sess", "cookie", "token"])]

/-- `generateFuzzyPatterns`: expansions of the term, keys the term expands,
and (for terms of length ≥ 3) the CamelCase and snake_case variants. -/
def generateFuzzyPatterns (term : String) : List String :=
  (match fuzzyMap.find? (fun kv => kv.1 == term) with
   | some kv => kv.2.map (fun e => "(?i)" ++ quoteMeta e)
   | none => []) ++
  (fuzzyMap.filter (fun kv => kv.2.contains term)).map
    (fun kv => "(?i)" ++ quoteMeta kv.1) ++
  (if 3 ≤ term.length then
    ["(?i)" ++ quoteMeta (goTitle term) ++ "[A-Z]\\w*",
     "(?i)\\w*_?" ++ quoteMeta term ++ "_?\\w*"]
   else [])

/-- `queryToRegex`: an error for a query with no terms, else the OR of all
per-term pattern groups. -/
def queryToRegex (query : String) : Except String String :=
  let terms := goFields query
  if terms = [] then .error "empty query"
  else
    let patterns := terms.map (fun term0 =>
      let term := goToLower term0
      let exactPattern := "(?i)" ++ quoteMeta term
      let termPatterns := [exactPattern] ++
        (if 3 ≤ term.length then ["(?i)\\w*" ++ quoteMeta term ++ "\\w*"] else []) ++
        generateFuzzyPatterns term
      if 1 < termPatterns.length then "(" ++ String.intercalate "|" termPatterns ++ ")"
      else termPatterns.headD "")
    if patterns.length = 1 then .ok (patterns.headD "")
    else .ok ("(" ++ String.intercalate "|" patterns ++ ")")

/-- The `filters map[string]interface{}` of `buildRipgrepArgs`: absent keys
modelled as empty values. -/
structure SearchFilters where
  languages : List String
  filePatterns : List String
  pathPrefix : String
deriving Repr, DecidableEq

/-- `mapLanguageToRipgrepType` ("" when unmapped, as a Go map miss). -/
def mapLanguageToRipgrepType (language : String) : String :=
  let found := [("go", "go"), ("javascript", "js"), ("typescript", "ts"), ("python", "py"),
     ("java", "java"), ("cpp", "cpp"), ("c", "c"), ("csharp", "csharp"),
     ("ruby", "ruby"), ("php", "php"), ("shell", "sh"), ("rust", "rust"),
     ("kotlin", "kotlin"), ("swift", "swift"), ("scala", "scala"), ("r", "r"),
     ("sql", "sql"), ("html", "html"), ("css", "css"), ("json", "json"),
     ("xml", "xml"), ("yaml", "yaml"), ("markdown", "md")].find?
      (fun kv => kv.1 == language)
  ((found.map (·.2)).getD "")

/-- `buildRipgrepArgs`: the fixed flag set, the filter flags, then the
compiled query pattern (the Go parameter `limit` is unused in its body). -/
def buildRipgrepArgs (maxMatches : Nat) (query : String) (_limit : Nat)
    (filters : SearchFilters) : Except String (List String) :=
  let args := ["--json", "--line-number", "--column", "--context", "2",
               "--max-count", toString maxMatches, "--smart-case"]
  let args := args ++ filters.languages.flatMap (fun lang =>
    let t := mapLanguageToRipgrepType lang
    if t = "" then [] else ["--type", t])
  let args := args ++ filters.filePatterns.flatMap (fun p => ["--glob", p])
  let args := args ++ (if filters.pathPrefix ≠ "" then ["--glob", filters.pathPrefix ++ "*"] else [])
  match queryToRegex query with
  | .error e => .error ("failed to convert query to regex: " ++ e)
  | .ok pattern => .ok (args ++ [pattern])

/-- How a ripgrep invocation can end: output on success, the no-matches exit
code 1, or a failure. -/
inductive RgExit where
  | output (stdout : String)
  | noMatches
  | failed (msg : String)

/-- `SearchLexical`, with the ripgrep execution and the JSON output parsing
(`parseRipgrepOutput`, an external data format) as parameters. A no-match exit
is not an error: the Go code returns `(nil, nil)`, i.e. an empty result. -/
def searchLexical (rg : List String → RgExit) (parse : String → List (CodeChunk ℚ))
    (maxMatches : Nat) (query : String) (limit : Nat) (filters : SearchFilters) :
    Except String (List (CodeChunk ℚ)) :=
  match buildRipgrepArgs maxMatches query limit filters with
  | .error e => .error ("failed to build ripgrep args: " ++ e)
  | .ok args =>
    match rg args with
    | .noMatches => .ok []
    | .failed e => .error ("ripgrep execution failed: " ++ e)
    | .output out => .ok (parse out)

/-- Concrete chat fixtures for exercising the message-cycle event order:
a session with streaming options enabled and a streamed compose outcome
delivering two tokens before succeeding. -/
def c4opts : ChatOptions := { maxResults := 10, streamTokens := true, model := "" }

def c4sess : ChatSession :=
  { id := "session-1", repositoryId := "repo-1", tenantId := "t", options := some c4opts }

def c4res : ComposeResult := { fullResponse := "answer", citations := ["a.go"] }

def c4cs : StreamComposeOutcome := { tokens := ["ans", "wer"], result := .ok c4res }



/-! ## Theorems -/

example : hexOfBytes (sha256 (strBytes "abc")) =
    "ba7816bf8f01cfea414140de5dae2223b00361a396177a9cb410ff61f20015ad" := by decide

theorem chunkLoop_start_ge (fp lang : String) (lines : List String) (cs ov : Nat) :
    ∀ fuel i, ∀ c ∈ chunkLoop fp lang lines cs ov fuel i, i + 1 ≤ c.startLine := by
  intro fuel
  induction fuel with
  | zero => intro i c hc; simp [chunkLoop] at hc
  | succ fuel ih =>
    intro i c hc
    simp only [chunkLoop] at hc
    split at hc
    · split at hc
      · simp at hc
      · split at hc
        · have := ih _ _ hc; omega
        · rcases List.mem_cons.mp hc with h | h
          · subst h; simp
          · split at h
            · simp at h
            · have := ih _ _ h; omega
    · simp at hc

theorem chunkLoop_shape (fp lang : String) (lines : List String) (cs ov : Nat) :
    ∀ fuel i, ∀ c ∈ chunkLoop fp lang lines cs ov fuel i,
      (∃ k, c.startLine = i + k * (cs - ov) + 1) ∧
      c.startLine - 1 < lines.length ∧
      c.endLine = min (c.startLine - 1 + cs) lines.length ∧
      c.content = windowContent lines (c.startLine - 1) c.endLine ∧
      c.content.data.all goIsSpace = false ∧
      c.id = generateChunkID fp c.startLine c.endLine ∧
      c.filePath = fp := by
  intro fuel
  induction fuel with
  | zero => intro i c hc; simp [chunkLoop] at hc
  | succ fuel ih =>
    intro i c hc
    simp only [chunkLoop] at hc
    split at hc
    · split at hc
      · simp at hc
      · split at hc
        · obtain ⟨⟨k, hk⟩, rest⟩ := ih _ c hc
          refine ⟨⟨k + 1, ?_⟩, rest⟩
          rw [Nat.succ_mul]; omega
        · rcases List.mem_cons.mp hc with h | h
          · subst h
            rename_i hguard hsmall hws
            simp only [Bool.not_eq_true] at hws
            refine ⟨⟨0, ?_⟩, ?_, ?_, ?_, ?_, ?_, ?_⟩
            · dsimp only; omega
            · dsimp only; omega
            · dsimp only; simp only [Nat.add_sub_cancel]
            · dsimp only; simp only [Nat.add_sub_cancel]
            · dsimp only; exact hws
            · dsimp only
            · dsimp only
          · have h2 : c ∈ chunkLoop fp lang lines cs ov fuel (i + (cs - ov)) := by
              split at h
              · simp at h
              · exact h
            obtain ⟨⟨k, hk⟩, rest⟩ := ih _ c h2
            refine ⟨⟨k + 1, ?_⟩, rest⟩
            rw [Nat.succ_mul]; omega
    · simp at hc

theorem finalStart_add_ge (len cs step : Nat) (hs : 0 < step) :
    len ≤ finalStart len cs step + cs := by
  unfold finalStart finalQ
  split
  · omega
  · have hd := Nat.div_add_mod (len - cs + step - 1) step
    have hr : (len - cs + step - 1) % step < step := Nat.mod_lt _ hs
    generalize (len - cs + step - 1) / step = q at hd ⊢
    generalize hm : (len - cs + step - 1) % step = r at hd hr
    generalize hp : step * q = sq at hd ⊢
    omega

theorem finalStart_lt (len cs step : Nat) (hs : 0 < step) (hsc : step ≤ cs) (hl : 0 < len) :
    finalStart len cs step < len := by
  unfold finalStart finalQ
  split
  · simp only [Nat.mul_zero]; omega
  · have hd := Nat.div_add_mod (len - cs + step - 1) step
    generalize (len - cs + step - 1) / step = q at hd ⊢
    generalize hm : (len - cs + step - 1) % step = r at hd
    generalize hp : step * q = sq at hd ⊢
    omega

theorem finalStart_min (len cs step : Nat) (hs : 0 < step) (k : Nat)
    (hk : step * k < finalStart len cs step) : step * k + cs < len := by
  unfold finalStart finalQ at hk
  split at hk
  · simp at hk
  · have hkq : k < (len - cs + step - 1) / step := Nat.lt_of_mul_lt_mul_left hk
    have h1 : step * (k + 1) ≤ step * ((len - cs + step - 1) / step) :=
      Nat.mul_le_mul_left step hkq
    have hd := Nat.div_add_mod (len - cs + step - 1) step
    have h2 : step * (k + 1) = step * k + step := by ring
    generalize (len - cs + step - 1) / step = q at h1 hd
    generalize hm : (len - cs + step - 1) % step = r at hd
    generalize hp : step * q = sq at h1 hd
    generalize hp2 : step * (k + 1) = sk1 at h1 h2
    generalize hp3 : step * k = sk at h2 ⊢
    omega

theorem any_start_eq_false {l : List FileChunk} {t : Nat}
    (h : ∀ c ∈ l, c.startLine ≠ t) :
    (l.any (fun c => c.startLine == t)) = false := by
  rw [List.any_eq_false]
  intro c hc
  simpa using h c hc

theorem chunkLoop_final (fp lang : String) (lines : List String) (cs ov : Nat)
    (hov : ov < cs) (hlen : 0 < lines.length) :
    ∀ fuel k, lines.length ≤ fuel + (cs - ov) * k →
      (cs - ov) * k ≤ finalStart lines.length cs (cs - ov) →
      (((chunkLoop fp lang lines cs ov fuel ((cs - ov) * k)).any
          (fun c => c.startLine == finalStart lines.length cs (cs - ov) + 1)) = true ↔
        ((windowContent lines (finalStart lines.length cs (cs - ov)) lines.length).data.all
            goIsSpace = false ∧
          ¬(lines.length - finalStart lines.length cs (cs - ov) < cs / 10 ∧
            0 < finalStart lines.length cs (cs - ov)))) := by
  have hstep : 0 < cs - ov := by omega
  have hlt : finalStart lines.length cs (cs - ov) < lines.length :=
    finalStart_lt _ _ _ hstep (by omega) hlen
  intro fuel
  induction fuel with
  | zero =>
    intro k h1 h2
    exfalso
    generalize (cs - ov) * k = sk at h1 h2
    omega
  | succ fuel ih =>
    intro k h1 h2
    have hguard : (cs - ov) * k < lines.length := by
      generalize (cs - ov) * k = sk at h2 ⊢
      omega
    rcases Nat.lt_or_ge ((cs - ov) * k) (finalStart lines.length cs (cs - ov)) with hcase | hcase
    · -- a full window strictly before the final one
      have hcl : (cs - ov) * k + cs < lines.length := finalStart_min _ _ _ hstep _ hcase
      have hend : min ((cs - ov) * k + cs) lines.length = (cs - ov) * k + cs :=
        Nat.min_eq_left (Nat.le_of_lt hcl)
      have hq : k + 1 ≤ finalQ lines.length cs (cs - ov) := by
        have := Nat.lt_of_mul_lt_mul_left (a := cs - ov) (by
          simpa only [finalStart] using hcase)
        omega
      have hle : (cs - ov) * (k + 1) ≤ finalStart lines.length cs (cs - ov) := by
        simpa only [finalStart] using Nat.mul_le_mul_left (cs - ov) hq
      have hfuel : lines.length ≤ fuel + (cs - ov) * (k + 1) := by
        have hmul : (cs - ov) * (k + 1) = (cs - ov) * k + (cs - ov) := by ring
        generalize (cs - ov) * (k + 1) = sk1 at hmul ⊢
        generalize (cs - ov) * k = sk at hmul h1
        omega
      simp only [chunkLoop]
      rw [if_pos hguard, hend]
      rw [if_neg (show ¬((cs - ov) * k + cs - (cs - ov) * k < cs / 10 ∧ 0 < (cs - ov) * k) from by
        generalize (cs - ov) * k = sk
        omega)]
      by_cases hws :
          (windowContent lines ((cs - ov) * k) ((cs - ov) * k + cs)).data.all goIsSpace = true
      · rw [if_pos hws]
        rw [show (cs - ov) * k + (cs - ov) = (cs - ov) * (k + 1) from by ring]
        exact ih (k + 1) hfuel hle
      · rw [if_neg hws]
        rw [if_neg (show ¬(lines.length ≤ (cs - ov) * k + cs) from by
          generalize (cs - ov) * k = sk at hcl
          omega)]
        have hne : (((cs - ov) * k + 1 == finalStart lines.length cs (cs - ov) + 1)) = false := by
          simp only [beq_eq_false_iff_ne]
          generalize (cs - ov) * k = sk at hcase ⊢
          omega
        simp only [List.any_cons]
        rw [hne, Bool.false_or]
        rw [show (cs - ov) * k + (cs - ov) = (cs - ov) * (k + 1) from by ring]
        exact ih (k + 1) hfuel hle
    · -- this is the final window
      have heq : (cs - ov) * k = finalStart lines.length cs (cs - ov) := le_antisymm h2 hcase
      rw [heq] at hguard ⊢
      have hend : min (finalStart lines.length cs (cs - ov) + cs) lines.length = lines.length :=
        Nat.min_eq_right (finalStart_add_ge _ _ _ hstep)
      simp only [chunkLoop]
      rw [if_pos hguard, hend]
      by_cases hsm : (lines.length - finalStart lines.length cs (cs - ov) < cs / 10 ∧
          0 < finalStart lines.length cs (cs - ov))
      · rw [if_pos hsm]
        simp only [List.any_nil, Bool.false_eq_true, false_iff]
        intro h
        exact h.2 hsm
      · rw [if_neg hsm]
        by_cases hws : (windowContent lines (finalStart lines.length cs (cs - ov))
            lines.length).data.all goIsSpace = true
        · rw [if_pos hws]
          rw [any_start_eq_false (fun c hc => by
            have := chunkLoop_start_ge fp lang lines cs ov fuel _ c hc
            omega)]
          simp only [Bool.false_eq_true, false_iff]
          intro h
          rw [h.1] at hws
          exact Bool.false_ne_true hws
        · rw [if_neg hws]
          simp only [List.any_cons]
          simp only [beq_self_eq_true, Bool.true_or, true_iff]
          exact ⟨by simpa only [Bool.not_eq_true] using hws, hsm⟩

/-- **C6 (amended).** With `overlap < chunk_size`, every chunk emitted by
`chunkFile` is a sliding window starting at a multiple of
`chunk_size - overlap` (0-based), ending at `min(start + chunk_size, len)`,
with content equal to that window's lines and never whitespace-only; and the
final window (the first one reaching the end of the file) is emitted iff its
content is not whitespace-only and it is not the case that its length is
strictly below `⌊chunk_size/10⌋` (Go integer division, not 10% exactly) while
not being the first window of the file. -/
theorem chunker_window_rule (fp lang : String) (lines : List String) (cs ov : Nat)
    (hov : ov < cs) :
    (∀ c ∈ chunkFile fp lang lines cs ov,
        (∃ k, c.startLine = k * (cs - ov) + 1) ∧
        c.endLine = min (c.startLine - 1 + cs) lines.length ∧
        c.content = windowContent lines (c.startLine - 1) c.endLine ∧
        c.content.data.all goIsSpace = false) ∧
    (0 < lines.length →
      (((chunkFile fp lang lines cs ov).any
          (fun c => c.startLine == finalStart lines.length cs (cs - ov) + 1)) = true ↔
        ((windowContent lines (finalStart lines.length cs (cs - ov)) lines.length).data.all
            goIsSpace = false ∧
          ¬(lines.length - finalStart lines.length cs (cs - ov) < cs / 10 ∧
            0 < finalStart lines.length cs (cs - ov))))) := by
  constructor
  · intro c hc
    obtain ⟨⟨k, hk⟩, h2, h3, h4, h5, _, _⟩ := chunkLoop_shape fp lang lines cs ov _ _ c hc
    exact ⟨⟨k, by simpa using hk⟩, h3, h4, h5⟩
  · intro hlen
    have h := chunkLoop_final fp lang lines cs ov hov hlen (lines.length + 1) 0
      (by simp) (by simp)
    simpa only [chunkFile, Nat.mul_zero] using h

/-- **C9.** Every chunk produced by `chunkFile` has id
`generateChunkID(file_path, start_line, end_line)`, and `generateChunkID` is
exactly the first 16 hex characters of
`sha256(filepath + ":" + start_line + "-" + end_line)`. Both `chunkFile` and
`generateChunkID` are pure functions, so re-chunking the same file with the
same options yields identical ids across runs, and the id depends on nothing
but the three named fields. -/
theorem chunk_ids_are_sha256 (fp lang : String) (lines : List String) (cs ov : Nat) :
    ((chunkFile fp lang lines cs ov).all
        (fun c => c.id == generateChunkID c.filePath c.startLine c.endLine)) = true ∧
    ∀ p : String, ∀ s e : Nat,
      generateChunkID p s e =
        (hexOfBytes (sha256 (strBytes (p ++ ":" ++ toString s ++ "-" ++ toString e)))).take 16 := by
  constructor
  · rw [List.all_eq_true]
    intro c hc
    obtain ⟨_, _, _, _, _, hid, hfp⟩ := chunkLoop_shape fp lang lines cs ov _ _ c hc
    rw [hfp, hid]
    exact beq_self_eq_true _
  · intro p s e
    rfl

/-- **C6 counterexample.** With `chunk_size = 15`, `overlap = 0` and a 16-line
file of non-blank lines, the final window `[16,16]` has length 1, which is
strictly below 10% of the chunk size (`10 * 1 < 15`) and is not the first
window, so the claim as stated says it is dropped — yet `chunkFile` emits it:
the code's cutoff is the integer division `15/10 = 1`, and `1 < 1` fails. -/
theorem chunker_tenpercent_counterexample :
    ((chunkFile "f.go" "go" ce6lines 15 0).map (fun c => (c.startLine, c.endLine)))
      = [(1, 15), (16, 16)] ∧ 10 * 1 < 15 := by decide

/-- Witness for `chunker_window_rule` at a concrete input. -/
theorem chunker_window_rule_witness :
    1 < 2 ∧
    ((∀ c ∈ chunkFile "a.go" "go" ["x"] 2 1,
        (∃ k, c.startLine = k * (2 - 1) + 1) ∧
        c.endLine = min (c.startLine - 1 + 2) (["x"] : List String).length ∧
        c.content = windowContent ["x"] (c.startLine - 1) c.endLine ∧
        c.content.data.all goIsSpace = false) ∧
     (0 < (["x"] : List String).length →
       (((chunkFile "a.go" "go" ["x"] 2 1).any
           (fun c => c.startLine == finalStart (["x"] : List String).length 2 (2 - 1) + 1)) = true ↔
         ((windowContent ["x"] (finalStart (["x"] : List String).length 2 (2 - 1))
             (["x"] : List String).length).data.all goIsSpace = false ∧
           ¬((["x"] : List String).length - finalStart (["x"] : List String).length 2 (2 - 1) < 2 / 10 ∧
             0 < finalStart (["x"] : List String).length 2 (2 - 1)))))) :=
  ⟨by decide, chunker_window_rule "a.go" "go" ["x"] 2 1 (by decide)⟩


theorem leadsWith_count (x : Char) : ∀ t s, leadsWith t s = true → t.count x ≤ s.count x
  | [], s, _ => Nat.zero_le _
  | a :: as, [], h => by simp [leadsWith] at h
  | a :: as, b :: bs, h => by
    simp only [leadsWith, Bool.and_eq_true, beq_iff_eq] at h
    obtain ⟨hab, h2⟩ := h
    have ih := leadsWith_count x as bs h2
    subst hab
    simp only [List.count_cons]
    split <;> omega

theorem occursIn_count (x : Char) : ∀ t s, occursIn t s = true → t.count x ≤ s.count x
  | t, [], h => leadsWith_count x t [] (by simpa [occursIn] using h)
  | t, c :: rest, h => by
    simp only [occursIn, Bool.or_eq_true] at h
    rcases h with h | h
    · exact leadsWith_count x t _ h
    · have ih := occursIn_count x t rest h
      simp only [List.count_cons]
      split <;> omega

theorem splitNl_length : ∀ l : List Char, (splitNl l).length = l.count '\n' + 1
  | [] => by simp [splitNl]
  | c :: rest => by
    have ih := splitNl_length rest
    by_cases h : c = '\n'
    · subst h
      simp [splitNl, List.count_cons, ih]
    · simp only [splitNl, if_neg h]
      match hm : splitNl rest with
      | [] => rw [hm] at ih; simp at ih
      | hd :: tl =>
        rw [hm] at ih
        simp only [List.length_cons] at ih ⊢
        rw [List.count_cons]
        simp [h, ih]

theorem mergeOverlappingChunks_eq {α : Type} [LinearOrder α] (A B : CodeChunk α) :
    mergeOverlappingChunks A B =
      { repositoryId := A.repositoryId, filePath := A.filePath,
        startLine := min A.startLine B.startLine, endLine := max A.endLine B.endLine,
        content := if ¬ goContains A.content B.content
                   then combineContent A.content B.content else A.content,
        language := A.language, symbol := A.symbol,
        score := max A.score B.score, source := .merged } := by
  simp only [mergeOverlappingChunks, copyChunk, CodeChunk.mk.injEq, true_and, and_true]
  refine ⟨?_, ?_, ?_⟩
  · split <;> omega
  · split <;> omega
  · split
    · exact (max_eq_right (le_of_lt (by assumption))).symm
    · exact (max_eq_left (not_lt.mp (by assumption))).symm

theorem copyChunk_eq {α : Type} (c : CodeChunk α) : copyChunk c = c := rfl

theorem hasOverlap_of_conds {α : Type} (A B : CodeChunk α) (hfp : A.filePath = B.filePath)
    (h1 : B.startLine - 5 ≤ A.endLine) (h2 : A.startLine ≤ B.endLine + 5) :
    hasOverlap A B = true := by
  simp [hasOverlap, hfp, h1, h2]

theorem dedup_pair_eq {α : Type} [LinearOrder α] (C D : CodeChunk α)
    (h : hasOverlap C D = true) :
    ([C, D].foldl dedupStep []) = [mergeOverlappingChunks C D] := by
  simp [dedupStep, mergeScanRev, h, copyChunk_eq]

theorem dedup_two {α : Type} [LinearOrder α] (A B : CodeChunk α)
    (hAB : hasOverlap A B = true) (hBA : hasOverlap B A = true) :
    deduplicateFileChunks [A, B] =
      if A.startLine ≤ B.startLine then [mergeOverlappingChunks A B]
      else [mergeOverlappingChunks B A] := by
  unfold deduplicateFileChunks
  rw [if_neg (by simp)]
  simp only [List.insertionSort, List.orderedInsert]
  split
  · exact dedup_pair_eq A B hAB
  · exact dedup_pair_eq B A hBA

/-- **C7 (amended).** For chunks A, B with the same file_path within the
5-line proximity window, `deduplicateFileChunks [A, B]` emits exactly one
chunk whose line range is the union of the two ranges, whose score is the
maximum of the two scores, whose source is MERGED, and whose content is
whichever of the two contents has at least as many `"\n"`-split lines (Go
compares line counts, not byte lengths; ties and the contained-content case
keep the earlier chunk's content). -/
theorem merger_overlap_dedup {α : Type} [LinearOrder α] (A B : CodeChunk α)
    (hfp : A.filePath = B.filePath) (h1 : B.startLine - 5 ≤ A.endLine)
    (h2 : A.startLine ≤ B.endLine + 5) :
    (deduplicateFileChunks [A, B]).length = 1 ∧
    ∀ M ∈ deduplicateFileChunks [A, B],
      M.startLine = min A.startLine B.startLine ∧
      M.endLine = max A.endLine B.endLine ∧
      M.score = max A.score B.score ∧
      M.source = .merged ∧
      (M.content = A.content ∨ M.content = B.content) ∧
      (splitNl M.content.data).length =
        max (splitNl A.content.data).length (splitNl B.content.data).length := by
  have hAB : hasOverlap A B = true := hasOverlap_of_conds A B hfp h1 h2
  have hBA : hasOverlap B A = true :=
    hasOverlap_of_conds B A hfp.symm (by omega) (by omega)
  rw [dedup_two A B hAB hBA]
  have key : ∀ C D : CodeChunk α, goContains C.content D.content = true →
      (splitNl D.content.data).length ≤ (splitNl C.content.data).length := by
    intro C D hg
    rw [splitNl_length, splitNl_length]
    have := occursIn_count '\n' D.content.data C.content.data hg
    omega
  split
  · refine ⟨rfl, ?_⟩
    intro M hM
    simp only [List.mem_singleton] at hM
    subst hM
    rw [mergeOverlappingChunks_eq]
    refine ⟨rfl, rfl, rfl, rfl, ?_, ?_⟩
    · dsimp only
      split
      · unfold combineContent
        split
        · right; rfl
        · left; rfl
      · left; rfl
    · dsimp only
      split
      · unfold combineContent
        split
        · rename_i hgt
          omega
        · rename_i hgt
          omega
      · rename_i hnc
        have hg : goContains A.content B.content = true := not_not.mp hnc
        have := key A B hg
        omega
  · refine ⟨rfl, ?_⟩
    intro M hM
    simp only [List.mem_singleton] at hM
    subst hM
    rw [mergeOverlappingChunks_eq]
    refine ⟨?_, ?_, ?_, rfl, ?_, ?_⟩
    · exact min_comm _ _
    · exact max_comm _ _
    · exact max_comm _ _
    · dsimp only
      split
      · unfold combineContent
        split
        · left; rfl
        · right; rfl
      · right; rfl
    · dsimp only
      rw [max_comm]
      split
      · unfold combineContent
        split
        · rename_i hgt
          omega
        · rename_i hgt
          omega
      · rename_i hnc
        have hg : goContains B.content A.content = true := not_not.mp hnc
        have := key B A hg
        omega

/-- **C7 counterexample.** `ceA.content` is 20 characters on one line;
`ceB.content` is 3 characters on two lines. The ranges overlap, and the merged
chunk's content is `ceB.content` — the longer content (in characters) loses,
because `combineContent` compares `"\n"`-split line counts. -/
theorem merger_content_counterexample :
    ((deduplicateFileChunks [ceA, ceB]).map (fun c => c.content)) = ["x\ny"] ∧
    ("x\ny" : String).length < ceA.content.length := by decide

/-- Witness for `merger_overlap_dedup` at the concrete chunks `ceA`, `ceB`. -/
theorem merger_overlap_dedup_witness :
    ceA.filePath = ceB.filePath ∧ ceB.startLine - 5 ≤ ceA.endLine ∧
    ceA.startLine ≤ ceB.endLine + 5 ∧
    ((deduplicateFileChunks [ceA, ceB]).length = 1 ∧
     ∀ M ∈ deduplicateFileChunks [ceA, ceB],
       M.startLine = min ceA.startLine ceB.startLine ∧
       M.endLine = max ceA.endLine ceB.endLine ∧
       M.score = max ceA.score ceB.score ∧
       M.source = .merged ∧
       (M.content = ceA.content ∨ M.content = ceB.content) ∧
       (splitNl M.content.data).length =
         max (splitNl ceA.content.data).length (splitNl ceB.content.data).length) :=
  ⟨by decide, by decide, by decide,
   merger_overlap_dedup ceA ceB (by decide) (by decide) (by decide)⟩


theorem normalizeScores_map_score (chunks : List (CodeChunk ℝ)) :
    (normalizeScores chunks).map (·.score) =
      chunks.map (fun c =>
        1 / (1 + Real.exp (-((c.score - scoreMean chunks) / scoreStdDevAdj chunks)))) := by
  unfold normalizeScores
  split
  · rename_i h
    have he : chunks = [] := by simpa [List.isEmpty_iff] using h
    subst he; rfl
  · rw [List.map_map]; rfl

theorem map_sum_of_const (l : List (CodeChunk ℝ)) (f : CodeChunk ℝ → ℝ) (v : ℝ)
    (h : ∀ c ∈ l, f c = v) : (l.map f).sum = l.length * v := by
  induction l with
  | nil => simp
  | cons a t ih =>
    simp only [List.map_cons, List.sum_cons, List.length_cons]
    rw [h a (by simp), ih (fun c hc => h c (by simp [hc]))]
    push_cast
    ring

/-- **C8 (amended).** Over exact real arithmetic: `normalizeScores` maps each
raw score s to `1/(1+e^{-(s-mean)/stdDev})` with the mean and (population)
standard deviation of the list's raw scores, the standard deviation replaced
by 1 when it is zero; and when all raw scores are equal (the σ = 0 case) every
normalized score equals exactly 1/2. The original claim's "mean approximately
0.5 up to floating error when σ > 0" is dropped: the deviation of the mean
from 0.5 is algorithmic, not floating error (see the counterexample). -/
theorem score_normalization (chunks : List (CodeChunk ℝ)) :
    ((normalizeScores chunks).map (·.score) =
      chunks.map (fun c =>
        1 / (1 + Real.exp (-((c.score - scoreMean chunks) / scoreStdDevAdj chunks))))) ∧
    ∀ s : ℝ, chunks ≠ [] → (∀ c ∈ chunks, c.score = s) →
      ∀ c ∈ normalizeScores chunks, c.score = 1 / 2 := by
  refine ⟨normalizeScores_map_score chunks, ?_⟩
  intro s hne hs c hc
  have hlen : (0:ℝ) < chunks.length := by
    have := List.length_pos.mpr hne
    exact_mod_cast this
  have hmean : scoreMean chunks = s := by
    unfold scoreMean
    rw [map_sum_of_const chunks _ s hs]
    field_simp
  have hvar : scoreVariance chunks = 0 := by
    unfold scoreVariance
    rw [map_sum_of_const chunks _ (s * s) (fun c hc => by rw [hs c hc]), hmean]
    field_simp
  have hadj : scoreStdDevAdj chunks = 1 := by
    unfold scoreStdDevAdj
    rw [hvar, Real.sqrt_zero, if_pos rfl]
  unfold normalizeScores at hc
  split at hc
  · rename_i h
    have he : chunks = [] := by simpa [List.isEmpty_iff] using h
    exact absurd he hne
  · obtain ⟨c0, hc0, rfl⟩ := List.mem_map.mp hc
    dsimp only
    rw [hs c0 hc0, hmean, hadj, sub_self, zero_div, neg_zero, Real.exp_zero]
    norm_num

/-- Witness for `score_normalization` on a one-chunk list with score 5. -/
theorem score_normalization_witness :
    (([cw8] : List (CodeChunk ℝ)) ≠ []) ∧
    (∀ c ∈ ([cw8] : List (CodeChunk ℝ)), c.score = 5) ∧
    ∀ c ∈ normalizeScores [cw8], c.score = 1 / 2 :=
  ⟨by simp, by simp [cw8], (score_normalization [cw8]).2 5 (by simp) (by simp [cw8])⟩

/-- **C8 counterexample.** For raw scores `[0,0,0,0,1]` the standard deviation
is `2/5 > 0`, and the sum of the five normalized scores is below `49/20`, i.e.
their mean is below 0.49 — more than a hundredth away from 0.5 in exact real
arithmetic, refuting "mean approximately 0.5 up to floating error when
σ > 0". -/
theorem normalization_mean_counterexample :
    Real.sqrt (scoreVariance c8list) = 2 / 5 ∧
    ((normalizeScores c8list).map (·.score)).sum < 49 / 20 := by
  have hmean : scoreMean c8list = 1 / 5 := by
    norm_num [scoreMean, c8list, c8chunk]
  have hvar : scoreVariance c8list = 4 / 25 := by
    unfold scoreVariance
    rw [hmean]
    norm_num [c8list, c8chunk]
  have hsq : Real.sqrt ((4 : ℝ) / 25) = 2 / 5 := by
    rw [show (4 : ℝ) / 25 = (2 / 5) ^ 2 by norm_num]
    exact Real.sqrt_sq (by norm_num)
  have hadj : scoreStdDevAdj c8list = 2 / 5 := by
    unfold scoreStdDevAdj
    rw [hvar, hsq]
    rw [if_neg (by norm_num)]
  refine ⟨by rw [hvar]; exact hsq, ?_⟩
  have hsqhalf : Real.exp (1 / 2) * Real.exp (1 / 2) = Real.exp 1 := by
    rw [← Real.exp_add]; norm_num
  have hx : (41 : ℝ) / 25 < Real.exp (1 / 2) := by
    nlinarith [Real.exp_one_gt_d9, Real.exp_pos (1 / 2), hsqhalf]
  have hsq2 : Real.exp 1 * Real.exp 1 = Real.exp 2 := by
    rw [← Real.exp_add]; norm_num
  have h2 : Real.exp 2 < 739 / 100 := by
    nlinarith [Real.exp_one_lt_d9, Real.exp_pos 1, hsq2]
  have hy : (27 : ℝ) / 200 < Real.exp (-2) := by
    rw [Real.exp_neg, show (27 : ℝ) / 200 = (200 / 27)⁻¹ by norm_num]
    apply inv_strictAnti₀ (Real.exp_pos 2)
    linarith
  have hA : 1 / (1 + Real.exp (1 / 2)) < 19 / 50 := by
    rw [div_lt_iff₀ (by positivity)]
    nlinarith [hx]
  have hB : 1 / (1 + Real.exp (-2)) < 89 / 100 := by
    rw [div_lt_iff₀ (by positivity)]
    nlinarith [hy]
  have harg0 : -(((0 : ℝ) - 1 / 5) / (2 / 5)) = 1 / 2 := by norm_num
  have harg1 : -(((1 : ℝ) - 1 / 5) / (2 / 5)) = -2 := by norm_num
  rw [normalizeScores_map_score, hmean, hadj]
  simp only [c8list, c8chunk, List.map_cons, List.map_nil, List.sum_cons, List.sum_nil]
  rw [harg0, harg1]
  linarith [hA, hB]


/-- Helper: flattening the fuel-based batching recovers the original list. -/
theorem chunksOfF_flatten {α : Type} (n : Nat) (hn : 0 < n) :
    ∀ fuel (l : List α), l.length ≤ fuel → (chunksOfF n fuel l).flatten = l := by
  intro fuel
  induction fuel with
  | zero =>
    intro l hl
    have he : l = [] := List.length_eq_zero.mp (by omega)
    subst he; rfl
  | succ fuel ih =>
    intro l hl
    match l with
    | [] => rfl
    | x :: xs =>
      show ((x :: xs).take n :: chunksOfF n fuel ((x :: xs).drop n)).flatten = x :: xs
      rw [List.flatten_cons, ih _ (by simp only [List.length_drop]; simp at hl ⊢; omega),
        List.take_append_drop]

/-- Helper: the Go batching loop in `IndexEmbeddings` (batch size 100)
partitions the chunk list without loss. -/
theorem chunksOf_flatten {α : Type} (n : Nat) (hn : 0 < n) (l : List α) :
    (chunksOf n l).flatten = l :=
  chunksOfF_flatten n hn l.length l (le_refl _)

/-- General form of the C1 finding: for every repository id and chunk batch,
every Weaviate object sent by `IndexEmbeddings` / `UpsertVectors` carries the
metadata properties but `vector := none` — `UpsertVectors` builds `strVector`
from the embedding yet never assigns it to the `models.Object`. -/
theorem indexEmbeddings_objects (repoID : String) (chunks : List EmbeddedChunk) :
    indexEmbeddingsSentObjects repoID chunks =
      chunks.map (fun c =>
        { className := toWeaviateClassName repoID,
          properties := (chunkToVector c).metadata,
          vector := none }) := by
  unfold indexEmbeddingsSentObjects upsertVectorsObjects
  rw [← List.map_flatten, chunksOf_flatten 100 (by omega), List.map_map]
  rfl

/-- C1: the claim says `UpsertVectors` stores each input's embedding vector
alongside its metadata. In the source the computed `strVector` is never
assigned to the `models.Object` (only `Class` and `Properties` are set), so
the object sent for a chunk with a non-empty embedding has no vector: the
claim fails and the code drops every embedding it was asked to index. -/
theorem upsert_drops_vector :
    indexEmbeddingsSentObjects "repo-1" [c1chunk] =
      [{ className := "Repo1",
         properties := [("repository_id", .s "repo-1"), ("file_path", .s "main.go"),
                        ("start_line", .i 1), ("end_line", .i 10), ("language", .s "go"),
                        ("size", .i 12), ("created_at", .i 1700000000)],
         vector := none }] ∧
    c1chunk.embedding ≠ [] := by decide

/-- C2 (amended): `performDualSearch` has no partial-failure tolerance. If the
lexical backend errors the whole search errors with `lexical search failed:`;
if it succeeds but the query embedding or the semantic backend errors, the
whole search errors likewise; only when every stage succeeds are merged
results returned, truncated to the limit. -/
theorem dual_search_no_partial_tolerance
    (m : List (CodeChunk ℚ) → List (CodeChunk ℚ) → List (CodeChunk ℚ))
    (lex : Except String (List (CodeChunk ℚ))) (emb : Except String (List ℚ))
    (sem : List ℚ → Except String (List (CodeChunk ℚ))) (limit : Nat) :
    (∀ e, lex = .error e →
      performDualSearch m lex emb sem limit = .error ("lexical search failed: " ++ e)) ∧
    (∀ lr e, lex = .ok lr → emb = .error e →
      performDualSearch m lex emb sem limit =
        .error ("failed to generate query embedding: " ++ e)) ∧
    (∀ lr q e, lex = .ok lr → emb = .ok q → sem q = .error e →
      performDualSearch m lex emb sem limit = .error ("semantic search failed: " ++ e)) ∧
    (∀ lr q sr, lex = .ok lr → emb = .ok q → sem q = .ok sr →
      performDualSearch m lex emb sem limit =
        .ok ((m lr sr).take (min limit (m lr sr).length))) := by
  refine ⟨?_, ?_, ?_, ?_⟩
  · intro e he; subst he; rfl
  · intro lr e h1 h2; subst h1; subst h2; rfl
  · intro lr q e h1 h2 h3
    subst h1; subst h2
    simp only [performDualSearch, h3]
  · intro lr q sr h1 h2 h3
    subst h1; subst h2
    simp only [performDualSearch, h3]

/-- C2 counterexample: the lexical backend fails while the semantic backend
would succeed on the same query embedding, yet `performDualSearch` returns an
error instead of the semantic results the original claim promises. -/
theorem dual_search_counterexample :
    performDualSearch (fun a b => a ++ b) (.error "ripgrep failed") (.ok [1])
        (fun _ => .ok [c2chunk]) 10 =
      .error ("lexical search failed: " ++ "ripgrep failed") ∧
    (fun (_ : List ℚ) => (.ok [c2chunk] : Except String (List (CodeChunk ℚ)))) [1] =
      .ok [c2chunk] :=
  ⟨rfl, rfl⟩

/-- C2 witness: the amended theorem evaluated at a failing lexical backend and
at an all-success run. -/
theorem dual_search_witness :
    performDualSearch (fun a b => a ++ b)
        (.error "x") (.ok []) (fun _ => .ok []) 5 =
      .error ("lexical search failed: " ++ "x") ∧
    performDualSearch (fun a b => a ++ b)
        (.ok [c2chunk]) (.ok [1]) (fun _ => .ok [c2chunk]) 5 =
      .ok (([c2chunk] ++ [c2chunk]).take
        (min 5 ([c2chunk] ++ [c2chunk]).length)) :=
  ⟨(dual_search_no_partial_tolerance (fun a b => a ++ b) (.error "x") (.ok [])
      (fun _ => .ok []) 5).1 "x" rfl,
   (dual_search_no_partial_tolerance (fun a b => a ++ b) (.ok [c2chunk]) (.ok [1])
      (fun _ => .ok [c2chunk]) 5).2.2.2 [c2chunk] [1] [c2chunk] rfl rfl rfl⟩

/-- C3: the claim (and spec section 9) requires that re-submitting an upload
with an existing `(tenant, idempotency_key)` returns the existing job's status
and starts no second pipeline. The guard implementing this is commented out
("TEMPORARILY DISABLED") in both `UploadGitRepository` and
`CreateRepositoryIndex`: after a first upload under key `k1` is cached and its
pipeline started, a second upload with the same key returns a fresh
repository id and starts a second pipeline — the claim fails against the
code as written. -/
theorem idempotency_disabled_bug :
    getUploadStatus c3stAfterFirst.uploadStatuses "t" "k1" =
      some { uploadID := "k1", repositoryID := "repo-1", state := .pending, createdAt := 0 } ∧
    c3stAfterFirst.startedPipelines = [("repo-1", "k1")] ∧
    (match uploadGitRepository "local" "repo-2" "up-2" "t" "k1" "https://h/x.git"
        c3stAfterFirst with
     | .ok (resp, st2) =>
        resp.repositoryID = "repo-2" ∧ resp.uploadID = "k1" ∧
        st2.startedPipelines = [("repo-1", "k1"), ("repo-2", "k1")]
     | .error _ => False) :=
  ⟨by decide, by decide, ⟨rfl, rfl, by decide⟩⟩

/-- C5 counterexample: a `ChatMessage` arriving before any `Start` fails the
stream with `FailedPrecondition` ("session not initialized, send Start
message first"), not `InvalidArgument` as the original claim states. -/
theorem chat_message_before_start_counterexample :
    chatWithRepository c5env [ChatReq.chatMessage "hi" ""] =
      .grpcError .failedPrecondition [] ∧
    GrpcCode.failedPrecondition ≠ GrpcCode.invalidArgument :=
  ⟨rfl, by decide⟩

/-- C5 (amended): for every environment and inbound stream, a `ChatMessage`
received before any `Start` fails the stream with `FAILED_PRECONDITION`,
while an unrecognized message type fails it with `INVALID_ARGUMENT`; in both
cases no events are emitted. -/
theorem chat_first_message_dispatch (env : ChatEnv) (q sid : String) (rest : List ChatReq) :
    chatWithRepository env (ChatReq.chatMessage q sid :: rest) =
      .grpcError .failedPrecondition [] ∧
    chatWithRepository env (ChatReq.unknown :: rest) =
      .grpcError .invalidArgument [] :=
  ⟨rfl, rfl⟩

/-- Helper: the hit events produced by `handleChatMessage` (early hits ranked
from the enumeration of the first three, final hits ranked from the offset
enumeration of the remainder) equal the claim-level description
`claimCycleHits`. -/
theorem implHits_eq_claim (sid qid : String) (results : List (CodeChunk ℚ)) :
    (if 3 ≤ results.length then
      (results.take 3).enum.map
        (fun p => ChatEvent.searchHit sid qid .early ((p.1 : Int) + 1) p.2) ++
      (results.drop 3).enum.map
        (fun p => ChatEvent.searchHit sid qid .final (((3 + p.1 : Nat) : Int) + 1) p.2)
    else
      results.enum.map (fun p => ChatEvent.searchHit sid qid .final ((p.1 : Int) + 1) p.2)) =
    claimCycleHits sid qid results := by
  unfold claimCycleHits
  by_cases h : 3 ≤ results.length
  · simp only [if_pos h]
    congr 1
    apply List.map_congr_left
    intro p _
    have hr : (((3 + p.1 : Nat) : Int) + 1) = ((p.1 : Int) + 4) := by push_cast; ring
    rw [hr]
  · simp only [if_neg h]

/-- C4: for every query cycle whose retrieval and composition succeed, the
emitted event sequence is exactly one `SearchStarted`, then the `SearchHit`s
(first three with phase EARLY in ascending rank order and the remainder with
phase FINAL when at least three results exist, otherwise all FINAL; ranks
ascend from 1), then one `CompositionStarted`, then zero or more
`CompositionToken`s (streaming sessions only), then one
`CompositionComplete`, then one `Complete`. -/
theorem chat_event_sequence (sess : ChatSession) (qid : String)
    (results : List (CodeChunk ℚ)) (cs : StreamComposeOutcome)
    (nc : Except String ComposeResult) (rs rn : ComposeResult)
    (hcs : cs.result = .ok rs) (hnc : nc = .ok rn) :
    (isStreamingOpts sess.options = true →
      handleChatMessage sess qid (.ok results) cs nc =
        (([ChatEvent.searchStarted sess.id qid] ++ claimCycleHits sess.id qid results ++
          [ChatEvent.compositionStarted sess.id qid results.length]) ++
         cs.tokens.map (ChatEvent.compositionToken sess.id qid) ++
         [ChatEvent.compositionComplete sess.id qid rs.fullResponse rs.citations,
          ChatEvent.complete sess.id qid], none)) ∧
    (isStreamingOpts sess.options = false →
      handleChatMessage sess qid (.ok results) cs nc =
        (([ChatEvent.searchStarted sess.id qid] ++ claimCycleHits sess.id qid results ++
          [ChatEvent.compositionStarted sess.id qid results.length]) ++
         [ChatEvent.compositionComplete sess.id qid rn.fullResponse rn.citations,
          ChatEvent.complete sess.id qid], none)) := by
  constructor <;> intro h
  · simp only [handleChatMessage, h, hcs]
    rw [implHits_eq_claim]
  · simp only [handleChatMessage, h, hnc]
    rw [implHits_eq_claim]
/-- C4 witness: the event-order theorem evaluated on a streaming session with
four results and a two-token composition stream. -/
theorem chat_event_sequence_witness :
    c4cs.result = .ok c4res ∧
    (Except.ok c4res : Except String ComposeResult) = .ok c4res ∧
    ((isStreamingOpts c4sess.options = true →
      handleChatMessage c4sess "q1" (.ok [c2chunk, c2chunk, c2chunk, c2chunk]) c4cs (.ok c4res) =
        (([ChatEvent.searchStarted c4sess.id "q1"] ++
          claimCycleHits c4sess.id "q1" [c2chunk, c2chunk, c2chunk, c2chunk] ++
          [ChatEvent.compositionStarted c4sess.id "q1"
            ([c2chunk, c2chunk, c2chunk, c2chunk] : List (CodeChunk ℚ)).length]) ++
         c4cs.tokens.map (ChatEvent.compositionToken c4sess.id "q1") ++
         [ChatEvent.compositionComplete c4sess.id "q1" c4res.fullResponse c4res.citations,
          ChatEvent.complete c4sess.id "q1"], none)) ∧
     (isStreamingOpts c4sess.options = false →
      handleChatMessage c4sess "q1" (.ok [c2chunk, c2chunk, c2chunk, c2chunk]) c4cs (.ok c4res) =
        (([ChatEvent.searchStarted c4sess.id "q1"] ++
          claimCycleHits c4sess.id "q1" [c2chunk, c2chunk, c2chunk, c2chunk] ++
          [ChatEvent.compositionStarted c4sess.id "q1"
            ([c2chunk, c2chunk, c2chunk, c2chunk] : List (CodeChunk ℚ)).length]) ++
         [ChatEvent.compositionComplete c4sess.id "q1" c4res.fullResponse c4res.citations,
          ChatEvent.complete c4sess.id "q1"], none))) :=
  ⟨rfl, rfl,
    chat_event_sequence c4sess "q1" [c2chunk, c2chunk, c2chunk, c2chunk] c4cs
      (.ok c4res) c4res c4res rfl rfl⟩

/-- Helper: `strings.Fields` of an all-whitespace rune list is empty. -/
theorem fieldsAux_all_space :
    ∀ l : List Char, (∀ c ∈ l, goIsSpace c = true) → fieldsAux l [] = [] := by
  intro l
  induction l with
  | nil => intro _; rfl
  | cons c rest ih =>
    intro h
    have hc : goIsSpace c = true := h c (List.mem_cons_self c rest)
    have hrest : ∀ x ∈ rest, goIsSpace x = true := fun x hx => h x (List.mem_cons_of_mem c hx)
    simp only [fieldsAux, hc, if_pos rfl, if_true]
    exact ih hrest

/-- C10: for every backend, parser, match cap, limit and filter set, lexical
search on a query with no non-whitespace characters returns the error
"failed to build ripgrep args: failed to convert query to regex: empty
query" — `strings.Fields` yields no terms, `queryToRegex` rejects the query,
and ripgrep is never invoked, so no successful empty result is possible. -/
theorem lexical_empty_errors (rg : List String → RgExit)
    (parse : String → List (CodeChunk ℚ)) (maxMatches : Nat) (query : String)
    (limit : Nat) (filters : SearchFilters)
    (h : ∀ c ∈ query.data, goIsSpace c = true) :
    searchLexical rg parse maxMatches query limit filters =
      .error ("failed to build ripgrep args: " ++
        ("failed to convert query to regex: " ++ "empty query")) := by
  have hf : goFields query = [] := fieldsAux_all_space query.data h
  unfold searchLexical buildRipgrepArgs queryToRegex
  rw [hf]
  simp

/-- C10 witness: the lexical-error theorem evaluated at the three-space
query. -/
theorem lexical_empty_errors_witness :
    (∀ c ∈ ("   ").data, goIsSpace c = true) ∧
    searchLexical (fun _ => RgExit.noMatches) (fun _ => ([] : List (CodeChunk ℚ)))
        50 "   " 10 { languages := [], filePatterns := [], pathPrefix := "" } =
      .error ("failed to build ripgrep args: " ++
        ("failed to convert query to regex: " ++ "empty query")) :=
  ⟨by decide,
   lexical_empty_errors (fun _ => RgExit.noMatches) (fun _ => []) 50 "   " 10
     { languages := [], filePatterns := [], pathPrefix := "" } (by decide)⟩
end RepoContext
